import Mathlib

/-!
Verification development for the image-processing pipeline
(`src/core/image_loader.py`, `src/core/image_processor.py`,
`src/ui/main_window.py`).

Pixel buffers (numpy `ndarray` of `uint8`) are modelled as nested lists of
naturals: a pixel is its list of channel values, a matrix is a list of rows.
External OpenCV collaborators (`cv2.cvtColor`, `cv2.circle`, `cv2.merge`,
`cv2.VideoCapture`) are modelled from their documented behaviour; the
repository's own code is translated statement by statement.
-/

namespace ImageApp

/-- A pixel: its list of channel values (each a `uint8`, kept as `Nat`). -/
abbrev Pix := List Nat

/-- A matrix: rows of pixels (numpy array of shape `(h, w, c)`). -/
abbrev Mat := List (List Pix)

/-- A concrete constant matrix used for evaluating the transforms. -/
def constMat (hgt wdt : Nat) (p : Pix) : Mat :=
  List.replicate hgt (List.replicate wdt p)

/-! ### Python slice semantics

`image[y1:y2, x1:x2]` uses Python slicing: an index is first shifted by the
length if negative, then clamped into `[0, n]`; the slice is the elements
from the resolved start (inclusive) to the resolved stop (exclusive). -/

/-- Resolve a Python slice endpoint against a sequence of length `n`. -/
def pyIdx (n : Nat) (i : Int) : Nat :=
  if i < 0 then ((n : Int) + i).toNat else min i.toNat n

/-- Python slice `xs[a:b]` (step 1). -/
def pySlice (xs : List α) (a b : Int) : List α :=
  (xs.take (pyIdx xs.length b)).drop (pyIdx xs.length a)

/-! ### ImageProcessor (`src/core/image_processor.py`) -/

/-- Pixel-level effect of `ImageProcessor.extract_channel`
(`image_processor.py` lines 22-28): `cv2.merge` of the selected channel
plane with zero planes gives, pixel for pixel, a fresh 3-channel pixel with
the selected channel kept and the others zero.  The comparison `channel == 0`
/ `channel == 1` is on the Python int, so every other value (2, 3, -1, ...)
takes the final `else` (red) branch. -/
def extract_channel_pix (channel : Int) (p : Pix) : Pix :=
  if channel = 0 then [p.getD 0 0, 0, 0]
  else if channel = 1 then [0, p.getD 1 0, 0]
  else [0, 0, p.getD 2 0]

/-- `ImageProcessor.extract_channel(image, channel)`. -/
def extract_channel (image : Mat) (channel : Int) : Mat :=
  image.map fun row => row.map (extract_channel_pix channel)

/-- `ImageProcessor.crop_image(image, x1, y1, x2, y2)` = `image[y1:y2, x1:x2]`
(`image_processor.py` line 43): a plain numpy basic slice, with no
validation of the coordinates whatsoever. -/
def crop_image (image : Mat) (x1 y1 x2 y2 : Int) : Mat :=
  (pySlice image y1 y2).map fun row => pySlice row x1 x2

/-- Model of the external collaborator `cv2.cvtColor(p, COLOR_BGR2HSV)` on a
single 8-bit pixel, from the OpenCV documentation: `V = max(B,G,R)`,
`S = 255*(V-min)/V` (0 when `V = 0`), hue in degrees from the dominant
channel (0 when the pixel is gray), halved to fit 8 bits.  Division is
truncated; only the exactly-computed `V` channel matters below. -/
def bgr2hsvPix (p : Pix) : Pix :=
  let b := p.getD 0 0
  let g := p.getD 1 0
  let r := p.getD 2 0
  let v := max b (max g r)
  let mn := min b (min g r)
  let diff := v - mn
  let s := if v = 0 then 0 else (255 * diff) / v
  let hdeg : Int :=
    if diff = 0 then 0
    else if v = r then (60 * ((g : Int) - (b : Int))) / (diff : Int)
    else if v = g then 120 + (60 * ((b : Int) - (r : Int))) / (diff : Int)
    else 240 + (60 * ((r : Int) - (g : Int))) / (diff : Int)
  let hdeg := if hdeg < 0 then hdeg + 360 else hdeg
  [(hdeg / 2).toNat, s, v]

/-- Model of the external collaborator `cv2.cvtColor(p, COLOR_HSV2BGR)` on a
single 8-bit pixel, from the OpenCV documentation (sector decomposition of
the doubled hue; truncated division).  When `S = 0` every channel equals
`V`, which is the only case the theorems below evaluate. -/
def hsv2bgrPix (p : Pix) : Pix :=
  let hh := p.getD 0 0
  let s := p.getD 1 0
  let v := p.getD 2 0
  if s = 0 then [v, v, v]
  else
    let hd := hh * 2
    let sector := hd / 60
    let rem := hd % 60
    let lo := v * (255 - s) / 255
    let q := v * (255 * 60 - s * rem) / (255 * 60)
    let t := v * (255 * 60 - s * (60 - rem)) / (255 * 60)
    match sector with
    | 0 => [lo, t, v]
    | 1 => [lo, v, q]
    | 2 => [t, v, lo]
    | 3 => [v, q, lo]
    | 4 => [v, lo, t]
    | _ => [q, lo, v]

/-- Pixel-level effect of `ImageProcessor.adjust_brightness`
(`image_processor.py` lines 57-59).  The line
`hsv[:, :, 2] = np.clip(hsv[:, :, 2] + value, 0, 255)` adds a Python int in
`[0,100]` to a `uint8` plane: numpy casts the scalar to `uint8` and the
addition wraps modulo 256; `np.clip` then acts on values already in
`[0,255]` (here written as `min _ 255`, mirroring the upper clip, which is
the identity after the wrap). -/
def adjust_brightness_pix (value : Nat) (p : Pix) : Pix :=
  let hsv := bgr2hsvPix p
  let v2 := min (((hsv.getD 2 0) + value) % 256) 255
  hsv2bgrPix [hsv.getD 0 0, hsv.getD 1 0, v2]

/-- `ImageProcessor.adjust_brightness(image, value)`. -/
def adjust_brightness (image : Mat) (value : Nat) : Mat :=
  image.map fun row => row.map (adjust_brightness_pix value)

/-- The value channel of a BGR pixel: `V = max(B,G,R)` (OpenCV 8-bit HSV). -/
def valueChannel (p : Pix) : Nat :=
  max (p.getD 0 0) (max (p.getD 1 0) (p.getD 2 0))

/-- Model of the external collaborator
`cv2.circle(result, (x, y), radius, (0, 0, 255), 2)`: paints the pixels of
a 2-wide circular stroke around `(x, y)` in BGR red `(0,0,255)`, leaving
every other pixel of `result` alone; parts of the circle outside the image
are silently clipped (never an error).  The stroke is modelled as the
pixels whose squared distance from the centre lies in the band
`[(radius-1)^2, (radius+1)^2]`. -/
def circlePaint (m : Mat) (x y radius : Int) : Mat :=
  (List.range m.length).map fun i =>
    let row := m.getD i []
    (List.range row.length).map fun j =>
      let dx := Int.ofNat j - x
      let dy := Int.ofNat i - y
      let d2 := dx * dx + dy * dy
      if (radius - 1) * (radius - 1) ≤ d2 ∧ d2 ≤ (radius + 1) * (radius + 1)
      then [0, 0, 255]
      else row.getD j []

/-- `ImageProcessor.draw_circle(image, x, y, radius)`
(`image_processor.py` lines 74-76): copy the image and stroke the circle on
the copy.  `cv2.circle` itself asserts `radius >= 0` (the only failure the
library produces here); it performs no bounds check against the image. -/
def draw_circle (image : Mat) (x y radius : Int) : Except String Mat :=
  if radius < 0 then Except.error "cv2 assertion failed: radius is negative"
  else Except.ok (circlePaint image x y radius)

/-! ### Shell dialog validation (`src/ui/main_window.py`)

The region and circle parameters are checked only inside the dialogs of the
main window, immediately before the processor function is invoked. -/

/-- The `accept` handler of `MainWindow.crop_image_dialog`
(`main_window.py` lines 373-389): reject reversed corners, then regions
smaller than 10 in either axis, otherwise call `ImageProcessor.crop_image`. -/
def crop_accept (image : Mat) (x1 y1 x2 y2 : Int) : Except String Mat :=
  if x1 ≥ x2 ∨ y1 ≥ y2 then
    Except.error "start coordinates must be smaller than end coordinates"
  else if x2 - x1 < 10 ∨ y2 - y1 < 10 then
    Except.error "minimum crop region is 10x10 pixels"
  else Except.ok (crop_image image x1 y1 x2 y2)

/-- The `accept` handler of `MainWindow.draw_circle_dialog`
(`main_window.py` lines 496-511): reject a non-positive radius, then a disk
leaving the image (`width`/`height` read from `image.shape`), otherwise call
`ImageProcessor.draw_circle`. -/
def circle_accept (image : Mat) (x y radius : Int) : Except String Mat :=
  if radius ≤ 0 then Except.error "radius must be a positive number"
  else if x - radius < 0 ∨ x + radius ≥ (((image.getD 0 []).length : Nat) : Int)
        ∨ y - radius < 0 ∨ y + radius ≥ ((image.length : Nat) : Int)
  then Except.error "circle leaves the image bounds"
  else draw_circle image x y radius

/-! ### Canonicalizer (`src/core/image_loader.py`, `load_image` lines 35-41)

A decoded numpy buffer is either 2-dimensional (grayscale) or 3-dimensional
with some channel count.  `load_image` converts grayscale with
`cv2.cvtColor(image, COLOR_GRAY2BGR)` (replicate the value into 3 channels),
converts 4-channel with `COLOR_BGRA2BGR` (drop the alpha channel, keep the
colour channels in order), and returns every other decoded buffer as is. -/

/-- A decoded raw buffer: grayscale (2-dimensional) or `c`-channel. -/
inductive Raw where
  | gray (m : List (List Nat))
  | multi (c : Nat) (m : Mat)
deriving DecidableEq

/-- Channel count of a raw buffer (1 for a grayscale plane). -/
def Raw.channels : Raw → Nat
  | .gray _ => 1
  | .multi c _ => c

/-- The canonicalization step of `ImageLoader.load_image`
(`image_loader.py` lines 36-39): `if len(image.shape) == 2` promote
grayscale; `elif image.shape[2] == 4` drop alpha; otherwise return the
buffer unchanged. -/
def normalize : Raw → Raw
  | .gray m => .multi 3 (m.map fun row => row.map fun val => [val, val, val])
  | .multi c m =>
      if c = 4 then .multi 3 (m.map fun row => row.map fun p => p.take 3)
      else .multi c m

/-! ### Camera capture (`src/core/image_loader.py`, `capture_from_camera`)

The external capture collaborator (`cv2.VideoCapture`) is modelled by its
outcomes: whether the device opens and whether the single `read` succeeds.
The embedding records the calls made to the device in order. -/

/-- Calls made to the capture device. -/
inductive CamEvent where
  | devOpen
  | devRead
  | devRelease
deriving DecidableEq

/-- The failures of `capture_from_camera`: the raise at line 61 (device not
opened) and the raise at line 70 (frame read returned `ret = False`). -/
inductive CamError where
  | deviceUnavailable
  | frameReadFailure
deriving DecidableEq

/-- `ImageLoader.capture_from_camera` (`image_loader.py` lines 58-72):
`cap = cv2.VideoCapture(0)`; raise if `not cap.isOpened()`; otherwise
`ret, frame = cap.read()` then `cap.release()` (the release precedes the
`ret` check, so it also happens on the read-failure path); raise if
`not ret`; otherwise return the frame.  Returns the ordered device calls
together with the outcome. -/
def capture_from_camera (openOk readOk : Bool) (frame : Mat) :
    List CamEvent × Except CamError Mat :=
  if !openOk then
    ([CamEvent.devOpen], Except.error CamError.deviceUnavailable)
  else if !readOk then
    ([CamEvent.devOpen, CamEvent.devRead, CamEvent.devRelease],
     Except.error CamError.frameReadFailure)
  else
    ([CamEvent.devOpen, CamEvent.devRead, CamEvent.devRelease],
     Except.ok frame)

/-! ### Storage model: numpy arrays and views

numpy basic slicing (`image[y1:y2, x1:x2]`) returns a view into the same
storage, while `cv2.merge`, `cv2.cvtColor` and `ndarray.copy` allocate new
storage.  A heap is the list of allocated base arrays; a view addresses a
rectangle of one of them. -/

/-- The allocated base arrays. -/
abbrev Heap := List Mat

/-- A view: a base-array index and a rectangle inside it. -/
structure View where
  ref : Nat
  y0 : Nat
  x0 : Nat
  h : Nat
  w : Nat
deriving DecidableEq

/-- Read pixel `(i, j)` of a view. -/
def Heap.pix (H : Heap) (v : View) (i j : Nat) : Pix :=
  ((H.getD v.ref []).getD (v.y0 + i) []).getD (v.x0 + j) []

/-- Materialize the matrix a view denotes (what an OpenCV call reads). -/
def viewMat (H : Heap) (v : View) : Mat :=
  (List.range v.h).map fun i => (List.range v.w).map fun j => H.pix v i j

/-- Write pixel `(i, j)` of a view: mutates the underlying base array. -/
def writeView (H : Heap) (v : View) (i j : Nat) (p : Pix) : Heap :=
  H.set v.ref ((H.getD v.ref []).set (v.y0 + i)
    (((H.getD v.ref []).getD (v.y0 + i) []).set (v.x0 + j) p))

/-- Allocate a fresh base array and return the full view of it. -/
def allocFull (H : Heap) (m : Mat) : Heap × View :=
  (H ++ [m], ⟨H.length, 0, 0, m.length, (m.getD 0 []).length⟩)

/-- `extract_channel` at the storage level: `cv2.merge` allocates. -/
def extract_channel_op (H : Heap) (v : View) (channel : Int) : Heap × View :=
  allocFull H (extract_channel (viewMat H v) channel)

/-- `adjust_brightness` at the storage level: `cv2.cvtColor` allocates. -/
def adjust_brightness_op (H : Heap) (v : View) (value : Nat) : Heap × View :=
  allocFull H (adjust_brightness (viewMat H v) value)

/-- `draw_circle` at the storage level: `image.copy()` allocates. -/
def draw_circle_op (H : Heap) (v : View) (x y radius : Int) :
    Except String (Heap × View) :=
  match draw_circle (viewMat H v) x y radius with
  | Except.error e => Except.error e
  | Except.ok m => Except.ok (allocFull H m)

/-- `crop_image` at the storage level: numpy basic slicing allocates
nothing — the result is a view into the input's base array, with the slice
endpoints resolved against the view's extent. -/
def crop_image_op (H : Heap) (v : View) (x1 y1 x2 y2 : Int) : Heap × View :=
  (H, ⟨v.ref,
       v.y0 + pyIdx v.h y1, v.x0 + pyIdx v.w x1,
       pyIdx v.h y2 - pyIdx v.h y1, pyIdx v.w x2 - pyIdx v.w x1⟩)

/-! ### Helper lemmas -/

/-- A Python slice endpoint that is already in `[0, n]` resolves to itself. -/
theorem pyIdx_of_nonneg (n : Nat) (a : Int) (h0 : 0 ≤ a) (hn : a ≤ (n : Int)) :
    pyIdx n a = a.toNat := by
  unfold pyIdx
  rw [if_neg (by omega)]
  omega

/-- Length of an in-bounds Python slice. -/
theorem pySlice_length (xs : List α) (a b : Int)
    (h0 : 0 ≤ a) (hab : a ≤ b) (hb : b ≤ (xs.length : Int)) :
    (pySlice xs a b).length = (b - a).toNat := by
  unfold pySlice
  rw [pyIdx_of_nonneg _ _ h0 (le_trans hab hb),
    pyIdx_of_nonneg _ _ (le_trans h0 hab) hb, List.length_drop, List.length_take]
  omega

theorem getElem?_drop_add (l : List α) (a i : Nat) : (l.drop a)[i]? = l[a + i]? := by
  induction a generalizing l with
  | zero => simp
  | succ a ih =>
    cases l with
    | nil => simp
    | cons x xs =>
      have h : a + 1 + i = a + i + 1 := by omega
      rw [List.drop_succ_cons, ih, h, List.getElem?_cons_succ]

/-- Element of an in-bounds Python slice. -/
theorem pySlice_getElem? (xs : List α) (a b : Int) (i : Nat)
    (h0 : 0 ≤ a) (hb : b ≤ (xs.length : Int)) (hi : i < (b - a).toNat) :
    (pySlice xs a b)[i]? = xs[a.toNat + i]? := by
  have hab : a ≤ b := by omega
  unfold pySlice
  rw [pyIdx_of_nonneg _ _ h0 (le_trans hab hb),
    pyIdx_of_nonneg _ _ (le_trans h0 hab) hb,
    getElem?_drop_add, List.getElem?_take_of_lt (by omega)]

/-- Element of an in-bounds Python slice, `getD` form. -/
theorem pySlice_getD (xs : List α) (a b : Int) (i : Nat) (d : α)
    (h0 : 0 ≤ a) (hb : b ≤ (xs.length : Int)) (hi : i < (b - a).toNat) :
    (pySlice xs a b).getD i d = xs.getD (a.toNat + i) d := by
  rw [List.getD_eq_getElem?_getD, List.getD_eq_getElem?_getD,
    pySlice_getElem? xs a b i h0 hb hi]

theorem getD_map_of_lt (f : α → β) (l : List α) (i : Nat) (h : i < l.length) (d : β) :
    (l.map f).getD i d = f l[i] := by
  rw [List.getD_eq_getElem?_getD, List.getElem?_map, List.getElem?_eq_getElem h]
  simp

theorem getD_set_ne (l : List α) (n r : Nat) (a d : α) (h : r ≠ n) :
    (l.set n a).getD r d = l.getD r d := by
  rw [List.getD_eq_getElem?_getD, List.getD_eq_getElem?_getD,
    List.getElem?_set_ne (Ne.symm h)]

/-- A freshly allocated base array does not disturb existing views, and
writes through the fresh full view are invisible through existing views. -/
theorem allocFull_spec (H : Heap) (m : Mat) (v : View) (hv : v.ref < H.length) :
    (allocFull H m).2.ref = H.length
    ∧ (∀ i j, Heap.pix (allocFull H m).1 v i j = Heap.pix H v i j)
    ∧ (∀ i j p a b,
        Heap.pix (writeView (allocFull H m).1 (allocFull H m).2 i j p) v a b
          = Heap.pix (allocFull H m).1 v a b) := by
  refine ⟨rfl, ?_, ?_⟩
  · intro i j
    unfold allocFull Heap.pix
    rw [List.getD_append _ _ _ _ hv]
  · intro i j p a b
    unfold allocFull writeView Heap.pix
    rw [getD_set_ne _ _ _ _ _ (Nat.ne_of_lt hv)]

/-! ### Claims -/

/-- C1: on a pixel whose value channel is already 255, `adjust_brightness`
with delta 100 does NOT leave the value channel at 255: the `uint8`
addition in `hsv[:, :, 2] + value` wraps modulo 256 before `np.clip` runs,
so the value channel of an all-white pixel becomes `(255 + 100) % 256 = 99`.
This evaluates the embedded code at the failing input of the claim. -/
theorem adjust_brightness_wraps_at_255 :
    adjust_brightness [[[255, 255, 255]]] 100 = [[[99, 99, 99]]]
    ∧ valueChannel (((adjust_brightness [[[255, 255, 255]]] 100).getD 0 []).getD 0 [])
        = 99 := by
  constructor <;> rfl

/-- C4: the canonicalization of `load_image` does not reject a decoded
buffer whose channel count is neither 1 nor 3 nor 4: a 2-channel buffer
falls through both conversion branches and is returned unchanged, still
with 2 channels — there is no `UnsupportedChannelLayout` failure path. -/
theorem normalize_passes_two_channel_buffer :
    normalize (Raw.multi 2 [[[5, 7]]]) = Raw.multi 2 [[[5, 7]]]
    ∧ (normalize (Raw.multi 2 [[[5, 7]]])).channels = 2 := by
  constructor <;> rfl

/-- C9: `normalize` is idempotent on buffers that already have exactly
3 channels: such a buffer takes neither conversion branch and is returned
unchanged, so a second application changes nothing. -/
theorem normalize_idempotent_on_canonical (x : Raw) (hx : x.channels = 3) :
    normalize (normalize x) = normalize x := by
  cases x with
  | gray m => simp [Raw.channels] at hx
  | multi c m =>
    simp only [Raw.channels] at hx
    subst hx
    simp [normalize]

theorem normalize_idempotent_on_canonical_witness :
    (Raw.multi 3 [[[1, 2, 3]]]).channels = 3
    ∧ normalize (normalize (Raw.multi 3 [[[1, 2, 3]]]))
        = normalize (Raw.multi 3 [[[1, 2, 3]]]) :=
  ⟨rfl, normalize_idempotent_on_canonical (Raw.multi 3 [[[1, 2, 3]]]) rfl⟩

/-- C8: `capture_from_camera` opens the device, attempts exactly one frame
read, and releases the device on every exit path after a successful open —
the release precedes the `ret` check, so it also happens when the read
fails; it fails with `DeviceUnavailable` when the open fails (no read, no
release: the device was never acquired) and with `FrameReadFailure` when
the single read fails. -/
theorem capture_protocol (openOk readOk : Bool) (frame : Mat) :
    (openOk = true →
      (capture_from_camera openOk readOk frame).1
          = [CamEvent.devOpen, CamEvent.devRead, CamEvent.devRelease]
      ∧ CamEvent.devRelease ∈ (capture_from_camera openOk readOk frame).1
      ∧ ((capture_from_camera openOk readOk frame).1.count CamEvent.devRead) = 1
      ∧ (readOk = false →
          (capture_from_camera openOk readOk frame).2
            = Except.error CamError.frameReadFailure)
      ∧ (readOk = true →
          (capture_from_camera openOk readOk frame).2 = Except.ok frame))
    ∧ (openOk = false →
        capture_from_camera openOk readOk frame
          = ([CamEvent.devOpen], Except.error CamError.deviceUnavailable)) := by
  cases openOk <;> cases readOk <;> simp [capture_from_camera]

theorem capture_protocol_witness :
    CamEvent.devRelease ∈ (capture_from_camera true false []).1
    ∧ (capture_from_camera true false []).2
        = Except.error CamError.frameReadFailure :=
  ⟨((capture_protocol true false []).1 rfl).2.1,
   ((capture_protocol true false []).1 rfl).2.2.2.1 rfl⟩

/-- C2 (counterexample): `crop_image` itself performs no validation at all:
on a 20×20 buffer, the region `(0,0)-(5,5)` violates the `(x2-x1) ≥ 10`
and `(y2-y1) ≥ 10` precondition, yet `crop_image` does not fail — it
returns the ordinary 5×5 numpy slice. -/
theorem crop_no_invalid_region_failure :
    crop_image (constMat 20 20 [1, 2, 3]) 0 0 5 5 = constMat 5 5 [1, 2, 3] := by
  decide

/-- C2 (amended): the region precondition is enforced only by the shell's
crop dialog: its `accept` handler fails (with an error message, without
invoking `crop_image`) whenever the corners are not increasing or a span is
below 10, and otherwise passes the coordinates to `crop_image` unchecked;
`crop_image` itself never validates or fails. -/
theorem crop_validation_only_in_shell (image : Mat) (x1 y1 x2 y2 : Int) :
    ((x1 ≥ x2 ∨ y1 ≥ y2 ∨ x2 - x1 < 10 ∨ y2 - y1 < 10) →
      ∃ e, crop_accept image x1 y1 x2 y2 = Except.error e)
    ∧ (x1 < x2 → y1 < y2 → 10 ≤ x2 - x1 → 10 ≤ y2 - y1 →
      crop_accept image x1 y1 x2 y2
        = Except.ok (crop_image image x1 y1 x2 y2)) := by
  constructor
  · intro hviol
    by_cases h1 : x1 ≥ x2 ∨ y1 ≥ y2
    · exact ⟨_, by unfold crop_accept; rw [if_pos h1]⟩
    · have h2 : x2 - x1 < 10 ∨ y2 - y1 < 10 := by
        rcases hviol with h | h | h | h
        · exact absurd (Or.inl h) h1
        · exact absurd (Or.inr h) h1
        · exact Or.inl h
        · exact Or.inr h
      exact ⟨_, by unfold crop_accept; rw [if_neg h1, if_pos h2]⟩
  · intro h1 h2 h3 h4
    unfold crop_accept
    rw [if_neg (by omega), if_neg (by omega)]

theorem crop_validation_only_in_shell_witness :
    ((0 : Int) ≥ 5 ∨ (0 : Int) ≥ 5 ∨ (5 : Int) - 0 < 10 ∨ (5 : Int) - 0 < 10)
    ∧ ∃ e, crop_accept (constMat 20 20 [1, 2, 3]) 0 0 5 5 = Except.error e :=
  ⟨by omega,
   (crop_validation_only_in_shell (constMat 20 20 [1, 2, 3]) 0 0 5 5).1 (by omega)⟩

/-- C5 (counterexample): `draw_circle` itself performs no bounds check: a
circle of radius 5 centred at `(0, 3)` of a 12×12 buffer violates the
left-edge precondition `centerX - radius ≥ 0`, yet `draw_circle` succeeds
(the stroke is clipped by `cv2.circle`), returning a buffer rather than a
`CircleOutOfBounds` failure. -/
theorem draw_circle_left_edge_succeeds :
    (draw_circle (constMat 12 12 [1, 2, 3]) 0 3 5).isOk = true := by
  rfl

/-- C5 (amended): `draw_circle` never fails for any nonnegative radius —
out-of-bounds circles are silently clipped (the only library failure is a
negative radius); the `radius > 0` and disk-within-bounds checks are
enforced only by the shell's circle dialog, whose `accept` handler fails
with an error message, without invoking `draw_circle`, whenever they are
violated. -/
theorem circle_validation_only_in_shell (image : Mat) (x y radius : Int) :
    (0 ≤ radius → ∃ m2, draw_circle image x y radius = Except.ok m2
      ∧ m2.length = image.length)
    ∧ (radius ≤ 0 → ∃ e, circle_accept image x y radius = Except.error e)
    ∧ (0 < radius →
        (x - radius < 0 ∨ x + radius ≥ (((image.getD 0 []).length : Nat) : Int)
          ∨ y - radius < 0 ∨ y + radius ≥ ((image.length : Nat) : Int)) →
        ∃ e, circle_accept image x y radius = Except.error e) := by
  refine ⟨?_, ?_, ?_⟩
  · intro hr
    refine ⟨circlePaint image x y radius, ?_, ?_⟩
    · unfold draw_circle
      rw [if_neg (by omega)]
    · unfold circlePaint
      rw [List.length_map, List.length_range]
  · intro hr
    exact ⟨_, by unfold circle_accept; rw [if_pos hr]⟩
  · intro hr hout
    exact ⟨_, by unfold circle_accept; rw [if_neg (by omega), if_pos hout]⟩

theorem circle_validation_only_in_shell_witness :
    ((0 : Int) < 5)
    ∧ ((0 : Int) - 5 < 0 ∨ (0 : Int) + 5 ≥ (((constMat 12 12 ([1, 2, 3] : Pix)).getD 0 []).length : Int)
        ∨ (3 : Int) - 5 < 0 ∨ (3 : Int) + 5 ≥ ((constMat 12 12 ([1, 2, 3] : Pix)).length : Int))
    ∧ ∃ e, circle_accept (constMat 12 12 [1, 2, 3]) 0 3 5 = Except.error e :=
  ⟨by omega, Or.inl (by omega),
   (circle_validation_only_in_shell (constMat 12 12 [1, 2, 3]) 0 3 5).2.2
     (by omega) (Or.inl (by omega))⟩

/-- C6: under the precondition `0 ≤ x1 < x2 ≤ width`, `0 ≤ y1 < y2 ≤ height`
with both spans at least 10, `crop_image` returns a buffer of dimensions
exactly `(x2-x1, y2-y1)` whose pixel `(i, j)` is the source pixel
`(x1+i, y1+j)`. -/
theorem crop_in_bounds_correct (m : Mat) (hgt wdt : Nat) (x1 y1 x2 y2 : Int)
    (hm : m.length = hgt) (hrow : ∀ row ∈ m, row.length = wdt)
    (hx0 : 0 ≤ x1) (hx12 : x1 < x2) (hx2 : x2 ≤ (wdt : Int))
    (hy0 : 0 ≤ y1) (hy12 : y1 < y2) (hy2 : y2 ≤ (hgt : Int))
    (hsx : 10 ≤ x2 - x1) (hsy : 10 ≤ y2 - y1) :
    (crop_image m x1 y1 x2 y2).length = (y2 - y1).toNat
    ∧ (∀ row ∈ crop_image m x1 y1 x2 y2, row.length = (x2 - x1).toNat)
    ∧ ∀ i j, i < (y2 - y1).toNat → j < (x2 - x1).toNat →
        ((crop_image m x1 y1 x2 y2).getD i []).getD j []
          = (m.getD (y1.toNat + i) []).getD (x1.toNat + j) [] := by
  have hb : y2 ≤ (m.length : Int) := by omega
  refine ⟨?_, ?_, ?_⟩
  · unfold crop_image
    rw [List.length_map, pySlice_length m y1 y2 hy0 (le_of_lt hy12) hb]
  · intro row hmem
    unfold crop_image at hmem
    obtain ⟨r, hr, rfl⟩ := List.mem_map.mp hmem
    have hrm : r ∈ m := by
      unfold pySlice at hr
      exact List.mem_of_mem_take (List.mem_of_mem_drop hr)
    have hristage := hrow r hrm
    exact pySlice_length r x1 x2 hx0 (le_of_lt hx12) (by omega)
  · intro i j hi hj
    have hyn : y1.toNat + i < m.length := by omega
    have hlen2 : i < (pySlice m y1 y2).length := by
      rw [pySlice_length m y1 y2 hy0 (le_of_lt hy12) hb]; exact hi
    have hps : (pySlice m y1 y2)[i] = m[y1.toNat + i] := by
      have h := pySlice_getElem? m y1 y2 i hy0 hb hi
      rw [List.getElem?_eq_getElem hlen2, List.getElem?_eq_getElem hyn] at h
      exact Option.some.inj h
    have hrm : m[y1.toNat + i] ∈ m := List.getElem_mem hyn
    have hrl := hrow _ hrm
    unfold crop_image
    rw [getD_map_of_lt _ _ _ hlen2, hps,
      pySlice_getD _ x1 x2 j [] hx0 (by omega) hj,
      List.getD_eq_getElem m [] hyn]

theorem crop_in_bounds_correct_witness :
    (∀ row ∈ constMat 12 12 ([1, 2, 3] : Pix), row.length = 12)
    ∧ (crop_image (constMat 12 12 [1, 2, 3]) 0 0 10 10).length
        = ((10 : Int) - 0).toNat :=
  ⟨by decide,
   (crop_in_bounds_correct (constMat 12 12 [1, 2, 3]) 12 12 0 0 10 10
     (by decide) (by decide)
     (by omega) (by omega) (by omega) (by omega) (by omega) (by omega)
     (by omega) (by omega)).1⟩

/-- What `extract_channel_pix` stores in channel `c2` of the output pixel:
the source value when `c2` is the selected channel, 0 otherwise. -/
theorem extract_channel_pix_getD (channel : Int) (p : Pix) (c2 : Nat)
    (h2 : c2 < 3) (hc : channel = 0 ∨ channel = 1 ∨ channel = 2) :
    (extract_channel_pix channel p).getD c2 0
      = if (c2 : Int) = channel then p.getD c2 0 else 0 := by
  rcases hc with rfl | rfl | rfl <;> interval_cases c2 <;>
    simp [extract_channel_pix]

/-- C7: for a canonical 3-channel buffer and a channel index in `{0,1,2}`,
`extract_channel` returns a buffer of the same dimensions in which every
pixel keeps the source value at the selected channel and has 0 in the two
other channels. -/
theorem extract_channel_correct (m : Mat) (hgt wdt : Nat) (channel : Int)
    (hm : m.length = hgt)
    (hrow : ∀ row ∈ m, row.length = wdt ∧ ∀ p ∈ row, p.length = 3)
    (hc : channel = 0 ∨ channel = 1 ∨ channel = 2) :
    (extract_channel m channel).length = hgt
    ∧ (∀ row ∈ extract_channel m channel, row.length = wdt)
    ∧ ∀ i j, i < hgt → j < wdt → ∀ c2 : Nat, c2 < 3 →
        (((extract_channel m channel).getD i []).getD j []).getD c2 0
          = if (c2 : Int) = channel
            then ((m.getD i []).getD j []).getD c2 0 else 0 := by
  refine ⟨?_, ?_, ?_⟩
  · unfold extract_channel
    rw [List.length_map, hm]
  · intro row hmem
    unfold extract_channel at hmem
    obtain ⟨r, hr, rfl⟩ := List.mem_map.mp hmem
    rw [List.length_map]
    exact (hrow r hr).1
  · intro i j hi hj c2 h2
    have him : i < m.length := by omega
    have hrm : m[i] ∈ m := List.getElem_mem him
    have hjm : j < (m[i]).length := by
      rw [(hrow _ hrm).1]; exact hj
    unfold extract_channel
    rw [getD_map_of_lt _ _ _ him, getD_map_of_lt _ _ _ hjm,
      List.getD_eq_getElem m [] him, List.getD_eq_getElem _ [] hjm,
      extract_channel_pix_getD channel _ c2 h2 hc]

theorem extract_channel_correct_witness :
    ((1 : Int) = 0 ∨ (1 : Int) = 1 ∨ (1 : Int) = 2)
    ∧ (((extract_channel (constMat 4 4 [7, 8, 9]) 1).getD 0 []).getD 0 []).getD 1 0
        = if ((1 : Nat) : Int) = 1
          then (((constMat 4 4 ([7, 8, 9] : Pix)).getD 0 []).getD 0 []).getD 1 0 else 0 :=
  ⟨Or.inr (Or.inl rfl),
   (extract_channel_correct (constMat 4 4 [7, 8, 9]) 4 4 1 (by decide) (by decide)
     (Or.inr (Or.inl rfl))).2.2 0 0 (by omega) (by omega) 1 (by omega)⟩

/-- C10: `extract_channel` never rejects its channel index: any index other
than 0 and 1 — including out-of-range values such as 3 or -1 — falls
through to the final (red) branch, producing a buffer of the same
dimensions in which every pixel is `[0, 0, source channel 2]`. -/
theorem extract_channel_fallthrough_red (m : Mat) (hgt wdt : Nat)
    (channel : Int) (hm : m.length = hgt) (hrow : ∀ row ∈ m, row.length = wdt)
    (h0 : channel ≠ 0) (h1 : channel ≠ 1) :
    (extract_channel m channel).length = hgt
    ∧ (∀ row ∈ extract_channel m channel, row.length = wdt)
    ∧ ∀ i j, i < hgt → j < wdt →
        ((extract_channel m channel).getD i []).getD j []
          = [0, 0, ((m.getD i []).getD j []).getD 2 0] := by
  refine ⟨?_, ?_, ?_⟩
  · unfold extract_channel
    rw [List.length_map, hm]
  · intro row hmem
    unfold extract_channel at hmem
    obtain ⟨r, hr, rfl⟩ := List.mem_map.mp hmem
    rw [List.length_map]
    exact hrow r hr
  · intro i j hi hj
    have him : i < m.length := by omega
    have hrm : m[i] ∈ m := List.getElem_mem him
    have hjm : j < (m[i]).length := by
      rw [hrow _ hrm]; exact hj
    unfold extract_channel
    rw [getD_map_of_lt _ _ _ him, getD_map_of_lt _ _ _ hjm,
      List.getD_eq_getElem m [] him, List.getD_eq_getElem _ [] hjm]
    unfold extract_channel_pix
    rw [if_neg h0, if_neg h1]

theorem extract_channel_fallthrough_red_witness :
    ((-1 : Int) ≠ 0)
    ∧ ((extract_channel (constMat 4 4 [7, 8, 9]) (-1)).getD 0 []).getD 0 []
        = [0, 0, (((constMat 4 4 ([7, 8, 9] : Pix)).getD 0 []).getD 0 []).getD 2 0] :=
  ⟨by omega,
   (extract_channel_fallthrough_red (constMat 4 4 [7, 8, 9]) 4 4 (-1)
     (by decide) (by decide) (by omega) (by omega)).2.2 0 0 (by omega) (by omega)⟩

/-- C3 (counterexample): `crop_image` does not return an independently
owned buffer.  On a heap holding one 12×12 base array viewed in full,
cropping the valid region `(0,0)-(10,10)` returns a view into the same
base array: writing `[9,9,9]` into pixel `(0,0)` of the cropped result
changes pixel `(0,0)` of the input buffer from `[1,2,3]` to `[9,9,9]`. -/
theorem crop_result_aliases_input :
    Heap.pix
      (writeView
        (crop_image_op [constMat 12 12 [1, 2, 3]] ⟨0, 0, 0, 12, 12⟩ 0 0 10 10).1
        (crop_image_op [constMat 12 12 [1, 2, 3]] ⟨0, 0, 0, 12, 12⟩ 0 0 10 10).2
        0 0 [9, 9, 9])
      ⟨0, 0, 0, 12, 12⟩ 0 0 = [9, 9, 9]
    ∧ Heap.pix [constMat 12 12 [1, 2, 3]] ⟨0, 0, 0, 12, 12⟩ 0 0 = [1, 2, 3] := by
  constructor <;> rfl

/-- C3 (amended): `extract_channel`, `adjust_brightness` and `draw_circle`
leave the input buffer unchanged and allocate a fresh base array for the
result, so writing into their result never changes the input;
`crop_image` also leaves the input's pixels unchanged at call time, but
its result is a view of the input's own base array (no allocation), so it
is not independently owned. -/
theorem transform_ownership (H : Heap) (v : View) (hv : v.ref < H.length) :
    (∀ channel : Int,
      (extract_channel_op H v channel).2.ref = H.length
      ∧ (∀ i j, Heap.pix (extract_channel_op H v channel).1 v i j = Heap.pix H v i j)
      ∧ (∀ i j p a b,
          Heap.pix (writeView (extract_channel_op H v channel).1
              (extract_channel_op H v channel).2 i j p) v a b
            = Heap.pix (extract_channel_op H v channel).1 v a b))
    ∧ (∀ value : Nat,
      (adjust_brightness_op H v value).2.ref = H.length
      ∧ (∀ i j, Heap.pix (adjust_brightness_op H v value).1 v i j = Heap.pix H v i j)
      ∧ (∀ i j p a b,
          Heap.pix (writeView (adjust_brightness_op H v value).1
              (adjust_brightness_op H v value).2 i j p) v a b
            = Heap.pix (adjust_brightness_op H v value).1 v a b))
    ∧ (∀ x y radius : Int, 0 ≤ radius →
      ∃ H2 v2, draw_circle_op H v x y radius = Except.ok (H2, v2)
        ∧ v2.ref = H.length
        ∧ (∀ i j, Heap.pix H2 v i j = Heap.pix H v i j)
        ∧ (∀ i j p a b,
            Heap.pix (writeView H2 v2 i j p) v a b = Heap.pix H2 v a b))
    ∧ (∀ x1 y1 x2 y2 : Int,
        (crop_image_op H v x1 y1 x2 y2).1 = H
        ∧ (crop_image_op H v x1 y1 x2 y2).2.ref = v.ref) := by
  refine ⟨?_, ?_, ?_, ?_⟩
  · intro channel
    exact allocFull_spec H (extract_channel (viewMat H v) channel) v hv
  · intro value
    exact allocFull_spec H (adjust_brightness (viewMat H v) value) v hv
  · intro x y radius hr
    refine ⟨(allocFull H (circlePaint (viewMat H v) x y radius)).1,
            (allocFull H (circlePaint (viewMat H v) x y radius)).2, ?_, ?_⟩
    · unfold draw_circle_op draw_circle
      rw [if_neg (by omega)]
    · exact allocFull_spec H (circlePaint (viewMat H v) x y radius) v hv
  · intro x1 y1 x2 y2
    exact ⟨rfl, rfl⟩

theorem transform_ownership_witness :
    (View.mk 0 0 0 3 3).ref < ([constMat 3 3 [1, 2, 3]] : Heap).length
    ∧ (extract_channel_op [constMat 3 3 [1, 2, 3]] ⟨0, 0, 0, 3, 3⟩ 0).2.ref
        = ([constMat 3 3 [1, 2, 3]] : Heap).length
    ∧ (crop_image_op [constMat 3 3 [1, 2, 3]] ⟨0, 0, 0, 3, 3⟩ 0 0 2 2).1
        = [constMat 3 3 [1, 2, 3]] :=
  ⟨by decide,
   ((transform_ownership [constMat 3 3 [1, 2, 3]] ⟨0, 0, 0, 3, 3⟩ (by decide)).1 0).1,
   ((transform_ownership [constMat 3 3 [1, 2, 3]] ⟨0, 0, 0, 3, 3⟩ (by decide)).2.2.2 0 0 2 2).1⟩

end ImageApp
